import Mathlib

/-!
Verification development for the LocalAINews bot.

Shallow embedding of the orchestration core:
  - config.py    : startup validation (ensure_token / ensure_required)
  - lmstudio_helpers.py : the three-strategy summarizer adapter
  - news.py      : query pools, rate-limit wait, fetch_article
  - tasks.py     : quiet-hours sleep computation and daily query reset
  - discord_bot.py : lock-guarded accept/reject moderation handlers

External services (the search API and the completion endpoint) are modelled
as oracles describing one response per request; Python exceptions are made
explicit with an Except monad so that "never raises" claims are statable.
-/

namespace LocalAINews

/-- Exceptions that the Python code can raise at the modelled raise points. -/
inductive PyExc where
  | connectionError
  | attributeError
  | generic
deriving DecidableEq

/-- JSON values, as produced by response.json() / json.loads. -/
inductive JVal where
  | jnull
  | jbool (b : Bool)
  | jnum (n : Int)
  | jstr (s : String)
  | jarr (xs : List JVal)
  | jobj (fields : List (String × JVal))

/-- Python truthiness of a JSON value (None, False, 0, "", [], {} are falsy). -/
def jtruthy : JVal → Bool
  | JVal.jnull => false
  | JVal.jbool b => b
  | JVal.jnum n => n != 0
  | JVal.jstr s => s != ""
  | JVal.jarr xs => !xs.isEmpty
  | JVal.jobj fs => !fs.isEmpty

/-- isinstance(v, dict). -/
def jis_dict : JVal → Bool
  | JVal.jobj _ => true
  | _ => false

/-- dict.get(key): the value under the key, or None when absent / not a dict. -/
def jget : JVal → String → JVal
  | JVal.jobj fs, k =>
    match fs.find? (fun p => p.1 == k) with
    | some p => p.2
    | none => JVal.jnull
  | _, _ => JVal.jnull

/-- A piece of text abstracted by the outcome of parsing it as JSON
(none when json.loads would fail).  No claim depends on concrete JSON
syntax, only on the parse result. -/
structure JSONText where
  parseResult : Option JVal

/-- safe_json_parse (lmstudio_helpers.py): json.loads, None on failure. -/
def safe_json_parse (t : JSONText) : Option JVal := t.parseResult

/-- One entry of choices[0].message.tool_calls; malformed means accessing
tool_calls[0]["function"]["arguments"] raises (caught by the inner except). -/
inductive MsgToolCall where
  | calldata (arguments : JSONText)
  | malformed

/-- choices[0].message of a chat-completion response; an empty choices list
yields the all-default message, matching (data.get("choices") or [{}])[0]. -/
structure Msg where
  parsed : Option JVal := none
  content : JSONText := ⟨none⟩
  tool_calls : List MsgToolCall := []

/-- Outcome of one HTTP request to the completion endpoint:
the request raised a ConnectionError, raised some other exception, or
returned a status code with a body (none = response.json() raises). -/
inductive HResp where
  | connError
  | exc
  | resp (status : Nat) (body : Option Msg)

/-- Outcome of the GET to the models-listing endpoint. -/
inductive ModelsResp where
  | exc
  | modelsOk (data : List JVal)

/-- Oracle describing the behaviour of the completion service for one
summarize_with_lmstudio call: one response per request it may issue. -/
structure Behaviour where
  modelsResp : ModelsResp
  schemaResp : HResp
  chatResp : HResp
  plainResp : HResp

/-- The configuration slice that steers the adapter's control flow
(config.py: LMSTUDIO_MODEL, LMSTUDIO_BASE_URL may be unset; LM_USE_TOOLS). -/
structure LMConfig where
  model : Option String
  baseUrl : Option String
  lmUseTools : Bool

/-- The article dict passed to the summarizer by fetch_article: at that call
site title, source, summary (the description text) and link are strings. -/
structure ArticleIn where
  title : String
  source : String
  summary : String
  link : String

/-- Requests issued against the completion endpoint, in order. -/
inductive Req where
  | schema
  | chat (withTools : Bool)
  | plain
deriving DecidableEq

/-- lmstudio_models (lmstudio_helpers.py): ids of dict entries of data[]
whose id field is a string; any exception yields the empty list. -/
def lmstudio_models : ModelsResp → List String
  | ModelsResp.exc => []
  | ModelsResp.modelsOk data =>
    ((data.filter jis_dict).map (fun m => jget m "id")).filterMap
      (fun v => match v with
        | JVal.jstr s => some s
        | _ => none)

/-- Character-list prefix test (kernel-reducible). -/
def chars_starts : List Char → List Char → Bool
  | [], _ => true
  | _ :: _, [] => false
  | c :: cs, d :: ds => (c == d) && chars_starts cs ds

/-- Character-list containment test (kernel-reducible). -/
def chars_has : List Char → List Char → Bool
  | hay, needle =>
    match hay with
    | [] => needle.isEmpty
    | _ :: rest => chars_starts needle hay || chars_has rest needle

/-- str.lower(). -/
def str_lower (s : String) : String := ⟨s.data.map Char.toLower⟩

/-- Substring test, standing for the Python in operator on strings. -/
def str_contains (hay needle : String) : Bool :=
  chars_has hay.data needle.data

/-- looks_like_instruct_model (lmstudio_helpers.py).  The Python code calls
model_id.lower() unconditionally; when LMSTUDIO_MODEL is None (config.py
leaves it None and main.py never calls ensure_required) this raises
AttributeError, which we make explicit. -/
def looks_like_instruct_model (model_id : Option String) : Except PyExc Bool :=
  match model_id with
  | none => Except.error PyExc.attributeError
  | some s =>
    if str_contains (str_lower s) "instruct" then Except.ok true
    else Except.ok
      ((["qwen", "mistral", "llama", "phi", "gemma"].any
          (fun x => str_contains (str_lower s) x))
        && !(["r1", "reasoning"].any (fun y => str_contains (str_lower s) y)))

/-- user_prompt construction (lmstudio_helpers.py lines 89-97); the prompt
text does not influence the oracle, it is kept for faithfulness. -/
def user_prompt (a : ArticleIn) : String :=
  "Source: " ++ a.source.trim ++ "\nURL: " ++ a.link.trim ++ "\nTitle: " ++ a.title.trim
    ++ "\n\nDescription snippet (may be partial):\n" ++ (a.summary.trim.take 2000)

/-- Accept a parse result only if it is a dict with a truthy title
(isinstance(parsed, dict) and parsed.get("title")). -/
def accept_titled : Option JVal → Option JVal
  | some j => if jis_dict j && jtruthy (jget j "title") then some j else none
  | none => none

/-- Statuses on which the schema strategy prints and falls back instead of
calling raise_for_status (lmstudio_helpers.py line 119). -/
def schemaFallbackStatuses : List Nat := [400, 404, 415, 422, 500]

/-- Body of the first try block (schema-constrained request).
Except.error marks the raise points: the POST raising, raise_for_status on a
status outside the fallback list, or response.json() failing.
Except.ok (some j) is an early return, Except.ok none falls through. -/
def schema_try (r : HResp) : Except PyExc (Option JVal) :=
  match r with
  | HResp.connError => Except.error PyExc.connectionError
  | HResp.exc => Except.error PyExc.generic
  | HResp.resp status body =>
    if status ∈ schemaFallbackStatuses then Except.ok none
    else if 400 ≤ status then Except.error PyExc.generic
    else
      match body with
      | none => Except.error PyExc.generic
      | some msg =>
        match accept_titled msg.parsed with
        | some j => Except.ok (some j)
        | none =>
          match accept_titled (safe_json_parse msg.content) with
          | some j => Except.ok (some j)
          | none => Except.ok none

/-- Body of the second try block (chat request, optionally with tools).
The response handling does not depend on whether tools were attached:
message content is parsed first, tool-call arguments only afterwards. -/
def tools_try (r : HResp) : Except PyExc (Option JVal) :=
  match r with
  | HResp.connError => Except.error PyExc.connectionError
  | HResp.exc => Except.error PyExc.generic
  | HResp.resp status body =>
    if 400 ≤ status then Except.error PyExc.generic
    else
      match body with
      | none => Except.error PyExc.generic
      | some msg =>
        match accept_titled (safe_json_parse msg.content) with
        | some j => Except.ok (some j)
        | none =>
          match msg.tool_calls with
          | [] => Except.ok none
          | tc :: _ =>
            match tc with
            | MsgToolCall.malformed => Except.ok none
            | MsgToolCall.calldata args =>
              match accept_titled (safe_json_parse args) with
              | some j => Except.ok (some j)
              | none => Except.ok none

/-- Body of the third try block (plain-instruction request). -/
def plain_try (r : HResp) : Except PyExc (Option JVal) :=
  match r with
  | HResp.connError => Except.error PyExc.connectionError
  | HResp.exc => Except.error PyExc.generic
  | HResp.resp status body =>
    if 400 ≤ status then Except.error PyExc.generic
    else
      match body with
      | none => Except.error PyExc.generic
      | some msg =>
        match accept_titled (safe_json_parse msg.content) with
        | some j => Except.ok (some j)
        | none => Except.ok none

/-- The three strategies with their except handlers, plus the trace of
requests issued.  Strategy 1: except ConnectionError returns None for the
whole adapter; except Exception falls through.  Strategies 2 and 3 catch
every exception and fall through. -/
def summarize_core (useTools : Bool) (b : Behaviour) :
    Except PyExc (Option JVal) × List Req :=
  match schema_try b.schemaResp with
  | Except.ok (some j) => (Except.ok (some j), [Req.schema])
  | Except.error PyExc.connectionError => (Except.ok none, [Req.schema])
  | Except.ok none | Except.error _ =>
    match tools_try b.chatResp with
    | Except.ok (some j) => (Except.ok (some j), [Req.schema, Req.chat useTools])
    | _ =>
      match plain_try b.plainResp with
      | Except.ok (some j) =>
        (Except.ok (some j), [Req.schema, Req.chat useTools, Req.plain])
      | _ => (Except.ok none, [Req.schema, Req.chat useTools, Req.plain])

/-- summarize_with_lmstudio (lmstudio_helpers.py): list models (total, its
try catches everything), run the instruct-model heuristic (raises
AttributeError when the model id is None), build the endpoint from the base
URL (raises AttributeError when it is None), then try the three strategies.
Returns the caller-visible outcome together with the completion requests
issued. -/
def lmstudio_summarize (cfg : LMConfig) (b : Behaviour) (art : ArticleIn) :
    Except PyExc (Option JVal) × List Req :=
  let _models := lmstudio_models b.modelsResp
  let _prompt := user_prompt art
  match looks_like_instruct_model cfg.model with
  | Except.error e => (Except.error e, [])
  | Except.ok _ =>
    match cfg.baseUrl with
    | none => (Except.error PyExc.attributeError, [])
    | some _ => summarize_core cfg.lmUseTools b

/-! News fetching (news.py). -/

/-- One article object of the search response (newsapi fields may be null). -/
structure NewsArticle where
  title : Option String
  sourceName : Option String
  description : Option String
  url : Option String

/-- Outcome of the GET against the search API for one query:
status 429, any other failure (request exception, raise_for_status,
json error), or a successful articles list (data.get("articles") or []). -/
inductive SearchResp where
  | rateLimited
  | httpError
  | searchOk (articles : List NewsArticle)

/-- The value stored under the summary key of a fetched article: the raw
description text, or the structured dict once enrichment succeeds. -/
inductive SummaryVal where
  | text (s : String)
  | structured (j : JVal)

/-- The dict returned by fetch_article. -/
structure ArticleOut where
  title : String
  source : String
  summary : SummaryVal
  link : Option String

/-- The two query pools (news.py module state). -/
structure FetchState where
  available : List String
  used : List String
deriving DecidableEq

/-- Environment of one fetch_article call: the configuration, the search
oracle, the shuffle performed by random.shuffle (an arbitrary reordering
function) and the summarizer behaviour. -/
structure NewsEnv where
  apiKey : Option String
  search : String → SearchResp
  shuffle : List String → List String
  lmCfg : LMConfig
  lmBeh : Behaviour

/-- Result of fetch_article: the returned dict, the final pool state, the
queries the loop actually searched, and the backoff sleeps performed
(empty unless a 429 was hit). -/
structure FetchOut where
  result : Option ArticleOut
  state : FetchState
  tried : List String
  waits : List (Nat × Nat)

/-- Python falsiness of NEWS_API_KEY (if not NEWS_API_KEY). -/
def news_key_missing : Option String → Bool
  | none => true
  | some s => s == ""

/-- article.get("description") or "No description available." -/
def desc_or : Option String → String
  | none => "No description available."
  | some s => if s == "" then "No description available." else s

/-- url in recent_urls, where url may be None (None is never in the set). -/
def is_dup (url : Option String) (recent : List String) : Bool :=
  match url with
  | some u => decide (u ∈ recent)
  | none => false

/-- handle_api_limit (news.py): while sleep_seconds > 0: sleep(min(60, s));
s -= 60; log s // 60 minutes remaining.  Each list entry is the seconds
slept and the remaining-minutes value logged after it.  The extra fuel
argument (consumed one unit per iteration, ample since s drops by 60) keeps
the recursion structural. -/
def api_wait_go : Nat → Nat → List (Nat × Nat)
  | 0, _ => []
  | _, 0 => []
  | fuel + 1, s + 1 =>
    (min 60 (s + 1), ((s + 1) - 60) / 60) :: api_wait_go fuel ((s + 1) - 60)

/-- The while loop of handle_api_limit, started with its own value as fuel. -/
def api_wait_loop (s : Nat) : List (Nat × Nat) := api_wait_go s s

/-- The full 15-minute rate-limit wait (sleep_seconds = 15 * 60). -/
def handle_api_limit_trace : List (Nat × Nat) := api_wait_loop (15 * 60)

/-- The result dict built from the search response fields (news.py lines
90-95): defaulted title and source name, the description text or the fixed
placeholder as summary, the url (possibly null) as link. -/
def mk_result (a : NewsArticle) : ArticleOut :=
  ⟨a.title.getD "", a.sourceName.getD "",
    SummaryVal.text (desc_or a.description), a.url⟩

/-- The enrichment call: summarize_with_lmstudio applied to the result dict
(whose summary is still the description string at that point). -/
def enrich (env : NewsEnv) (a : NewsArticle) : Except PyExc (Option JVal) :=
  (lmstudio_summarize env.lmCfg env.lmBeh
    ⟨a.title.getD "", a.sourceName.getD "", desc_or a.description,
      (a.url).getD ""⟩).1

/-- advance one recursion step: prepend the query to the tried list of the
continuation's outcome. -/
def cont_with (q : String) (o : FetchOut) : FetchOut :=
  ⟨o.result, o.state, q :: o.tried, o.waits⟩

/-- The per-query loop of fetch_article (news.py lines 69-108).
On 429: wait out the rate limit and return None at once.  On any other
failure or an empty articles list: next query.  On a result whose url is
in recent_urls: next query without committing.  Otherwise move the query
from available to used (list.remove would raise if the query were absent,
caught by the per-query except, hence the membership guard), build the
result dict, and attempt enrichment; if the summarizer raises, the
exception is caught by the per-query except and the loop continues with
the query already committed. -/
def fetch_loop (env : NewsEnv) (recent : List String) :
    List String → FetchState → FetchOut
  | [], st => ⟨none, st, [], []⟩
  | q :: rest, st =>
    match env.search q with
    | SearchResp.rateLimited => ⟨none, st, [q], handle_api_limit_trace⟩
    | SearchResp.httpError => cont_with q (fetch_loop env recent rest st)
    | SearchResp.searchOk arts =>
      match arts with
      | [] => cont_with q (fetch_loop env recent rest st)
      | a :: _ =>
        if is_dup a.url recent then cont_with q (fetch_loop env recent rest st)
        else if q ∈ st.available then
          match enrich env a with
          | Except.ok (some j) =>
            if jtruthy j then
              ⟨some { mk_result a with summary := SummaryVal.structured j },
                ⟨st.available.erase q, st.used ++ [q]⟩, [q], []⟩
            else ⟨some (mk_result a), ⟨st.available.erase q, st.used ++ [q]⟩, [q], []⟩
          | Except.ok none =>
            ⟨some (mk_result a), ⟨st.available.erase q, st.used ++ [q]⟩, [q], []⟩
          | Except.error _ =>
            cont_with q
              (fetch_loop env recent rest ⟨st.available.erase q, st.used ++ [q]⟩)
        else cont_with q (fetch_loop env recent rest st)

/-- The mid-cycle refill at the top of fetch_article: when available is
empty, move every used query back (news.py lines 54-58). -/
def entry_reset (st : FetchState) : FetchState :=
  if st.available.isEmpty then ⟨st.available ++ st.used, []⟩ else st

/-- fetch_article (news.py): bail out when NEWS_API_KEY is falsy, refill
the pool if empty, shuffle available in place, then iterate over a copy of
the shuffled list. -/
def fetch_article (env : NewsEnv) (recent : List String) (st : FetchState) :
    FetchOut :=
  if news_key_missing env.apiKey then ⟨none, st, [], []⟩
  else
    let st1 := entry_reset st
    let shuffled := env.shuffle st1.available
    fetch_loop env recent shuffled ⟨shuffled, st1.used⟩

/-- The daily reset (tasks.py reset_queries_every_morning, lines 89-90):
available.extend(used); used.clear(). -/
def reset_daily (st : FetchState) : FetchState :=
  ⟨st.available ++ st.used, []⟩

/-- Multiset of all terms currently held by the two pools. -/
def poolMultiset (st : FetchState) : Multiset String :=
  (st.available : Multiset String) + (st.used : Multiset String)

/-- One operation on the pools: a fetch_article invocation or the daily
reset. -/
inductive PoolOp where
  | fetchOp (env : NewsEnv) (recent : List String)
  | resetOp

/-- random.shuffle reorders in place: its model must be a permutation. -/
def shuffle_ok : PoolOp → Prop
  | PoolOp.fetchOp env _ => ∀ l : List String, (env.shuffle l).Perm l
  | PoolOp.resetOp => True

/-- State transform of one pool operation. -/
def pool_step (st : FetchState) : PoolOp → FetchState
  | PoolOp.fetchOp env recent => (fetch_article env recent st).state
  | PoolOp.resetOp => reset_daily st

/-- Run a sequence of pool operations. -/
def run_pool_ops (st : FetchState) (ops : List PoolOp) : FetchState :=
  ops.foldl pool_step st

/-- The top search result for this query is a link already excluded. -/
def dup_top (env : NewsEnv) (recent : List String) (q : String) : Prop :=
  ∃ a rest u, env.search q = SearchResp.searchOk (a :: rest)
    ∧ a.url = some u ∧ u ∈ recent

/-- The shape every summary of a fetched article must have (claim C10):
a dict with a truthy title, or a non-empty text. -/
def summary_ok : SummaryVal → Prop
  | SummaryVal.text s => s ≠ ""
  | SummaryVal.structured j => jis_dict j = true ∧ jtruthy (jget j "title") = true

/-! Scheduler clock arithmetic (tasks.py fetch_and_post_articles).
Instants are absolute local seconds; a day is 86400 seconds. -/

/-- Hour of day of an instant. -/
def hourOf (t : Nat) : Nat := t % 86400 / 3600

/-- Seconds of day of an instant. -/
def sodOf (t : Nat) : Nat := t % 86400

/-- The quiet branch guard (tasks.py line 61): hour at or past 22, or before 9. -/
def quiet_hour (t : Nat) : Prop := 22 ≤ hourOf t ∨ hourOf t < 9

/-- The sleep duration the code computes on entering the quiet branch:
tomorrow = now + one day; next_morning = that date at 09:00;
sleep_seconds = next_morning - now (tasks.py lines 63-67). -/
def computed_sleep (now : Nat) : Nat :=
  (now / 86400 + 1) * 86400 + 9 * 3600 - now

/-- Modelled from the spec: the number of seconds from now until the next
09:00 (today's if it is still ahead, otherwise tomorrow's).  This is the
quantity the spec says the scheduler computes; it is compared against
computed_sleep. -/
def spec_seconds_until_next_9am (now : Nat) : Nat :=
  if sodOf now < 9 * 3600 then 9 * 3600 - sodOf now
  else 86400 + 9 * 3600 - sodOf now

/-- The chunked quiet sleep (tasks.py lines 73-78): sleep min(60, s), tick
the clock forward by the amount slept, subtract 60, and break as soon as
the re-read clock is inside active hours (9 <= hour < 22).  Returns the
chunk durations and the final clock value. -/
def quiet_loop (t : Nat) (s : Nat) : List Nat × Nat :=
  if s = 0 then ([], t)
  else
    if 9 ≤ hourOf (t + min 60 s) ∧ hourOf (t + min 60 s) < 22 then
      ([min 60 s], t + min 60 s)
    else
      (min 60 s :: (quiet_loop (t + min 60 s) (s - 60)).1,
        (quiet_loop (t + min 60 s) (s - 60)).2)
termination_by s
decreasing_by all_goals omega

/-! Startup validation (config.py, main.py). -/

/-- The configuration surface read from the environment at import time. -/
structure AppEnv where
  discordToken : Option String
  adminChannelId : Option Int
  postChannelId : Option Int
  newsApiKey : Option String
  lmBaseUrl : Option String
  lmModel : Option String

/-- What the process does at startup. -/
inductive StartupResult where
  | exitWithError
  | botStarted
deriving DecidableEq

/-- str.strip(): drop whitespace from both ends (kernel-reducible). -/
def py_strip (s : String) : String :=
  ⟨(((s.data.dropWhile Char.isWhitespace).reverse.dropWhile
      Char.isWhitespace).reverse)⟩

/-- ensure_token (config.py): exit when the token is missing, not a string,
or blank after strip. -/
def ensure_token_exits (e : AppEnv) : Bool :=
  match e.discordToken with
  | none => true
  | some s => py_strip s == ""

/-- A string setting is missing when unset or empty (Python falsiness). -/
def str_opt_missing : Option String → Bool
  | none => true
  | some s => s == ""

/-- ensure_required (config.py lines 42-61): the list of missing required
keys it would report.  NEWS_API_KEY is not among the keys it checks. -/
def ensure_required_missing (e : AppEnv) : List String :=
  (if e.adminChannelId.isNone then ["ADMIN_CHANNEL_ID"] else [])
  ++ (if e.postChannelId.isNone then ["POST_CHANNEL_ID"] else [])
  ++ (if str_opt_missing e.lmBaseUrl then ["LMSTUDIO_BASE_URL"] else [])
  ++ (if str_opt_missing e.lmModel then ["LMSTUDIO_MODEL"] else [])

/-- main (main.py lines 21-36): the only validation performed before
bot.run is ensure_token; ensure_required is never called. -/
def main_startup (e : AppEnv) : StartupResult :=
  if ensure_token_exits e then StartupResult.exitWithError
  else StartupResult.botStarted

/-! Moderation (discord_bot.py ArticleModerationView, state.py queue+lock).
The queue and its asyncio lock live in state.py (declared there, mutated
only here and in tasks.py); the lock makes each membership-check-and-remove
below one atomic critical section, so an interleaving of two button
handlers is one of the two sequential orders of these sections. -/

/-- The two moderation buttons. -/
inductive ModAction where
  | acceptBtn
  | rejectBtn
deriving DecidableEq

/-- Observable outcome of one button handler run against the queue. -/
structure ActionOut (α : Type) where
  queue : List α
  alreadyModerated : Bool
  published : Bool

/-- One accept/reject handler: under the lock, test membership and remove;
if absent, send the already-moderated notice and do nothing else; if
present, remove it and (for accept only) post to the public channel. -/
def moderate_action {α : Type} [DecidableEq α]
    (act : ModAction) (article : α) (q : List α) : ActionOut α :=
  if article ∈ q then
    { queue := q.erase article,
      alreadyModerated := false,
      published := match act with
        | ModAction.acceptBtn => true
        | ModAction.rejectBtn => false }
  else
    { queue := q, alreadyModerated := true, published := false }

/-! Concrete fixtures used by counterexamples and witnesses. -/

/-- A complete summarizer configuration with the tool strategy disabled. -/
def sampleCfg : LMConfig :=
  ⟨some "qwen2.5-7b-instruct-mlx", some "http://localhost:1234", false⟩

/-- A complete summarizer configuration with the tool strategy enabled. -/
def sampleCfgTools : LMConfig :=
  ⟨some "qwen2.5-7b-instruct-mlx", some "http://localhost:1234", true⟩

/-- A configuration in which LMSTUDIO_MODEL was never set. -/
def cfgNoModel : LMConfig := ⟨none, some "http://localhost:1234", false⟩

/-- A message with no parsed object, no parseable content and no tool calls. -/
def msgEmpty : Msg := {}

/-- A service behaviour in which every request raises. -/
def behAllFail : Behaviour := ⟨ModelsResp.exc, HResp.exc, HResp.exc, HResp.exc⟩

/-- Behaviour: the schema-constrained request is rejected with HTTP 422 and
the later requests return unusable 200 responses. -/
def beh422 : Behaviour :=
  ⟨ModelsResp.exc, HResp.resp 422 none, HResp.resp 200 (some msgEmpty),
    HResp.resp 200 (some msgEmpty)⟩

/-- A sample article input for the summarizer. -/
def sampleArt : ArticleIn := ⟨"T", "S", "D", "http://example.org/a"⟩

/-- A summary object carried in the plain message content. -/
def contentObj : JVal := JVal.jobj [("title", JVal.jstr "from-content")]

/-- A summary object carried in the tool call arguments. -/
def argsObj : JVal := JVal.jobj [("title", JVal.jstr "from-tool-args")]

/-- A chat response message carrying both parseable content and a tool call. -/
def msgBoth : Msg := ⟨none, ⟨some contentObj⟩, [MsgToolCall.calldata ⟨some argsObj⟩]⟩

/-- A search result article with every field present. -/
def sampleNewsArt : NewsArticle :=
  ⟨some "T", some "S", some "D", some "http://example.org/a"⟩

/-- A news environment whose search always returns the same fresh article
and whose summarizer is configured but unreachable. -/
def envFresh : NewsEnv :=
  ⟨some "key", fun _ => SearchResp.searchOk [sampleNewsArt], fun l => l,
    sampleCfg, behAllFail⟩

/-- A news environment whose search always answers HTTP 429. -/
def envRL : NewsEnv :=
  ⟨some "key", fun _ => SearchResp.rateLimited, fun l => l, sampleCfg, behAllFail⟩

/-- A news environment reproducing the commit-then-429 scenario: the first
query succeeds with a fresh article but the summarizer configuration is
incomplete (model unset), so enrichment raises after the query was already
committed; the next query is answered 429. -/
def envBug : NewsEnv :=
  ⟨some "key",
    fun q => if q = "q1"
      then SearchResp.searchOk [⟨some "T", some "S", some "D", some "http://fresh"⟩]
      else SearchResp.rateLimited,
    fun l => l, cfgNoModel, behAllFail⟩

/-! Helper lemmas about the summarizer adapter. -/

theorem accept_titled_spec : ∀ (o : Option JVal) (j : JVal),
    accept_titled o = some j →
    jis_dict j = true ∧ jtruthy (jget j "title") = true := by
  intro o j h
  match o with
  | none => simp [accept_titled] at h
  | some v =>
    simp only [accept_titled] at h
    by_cases hb : (jis_dict v && jtruthy (jget v "title")) = true
    · rw [if_pos hb] at h
      simp only [Option.some.injEq] at h
      subst h
      simpa [Bool.and_eq_true] using hb
    · rw [if_neg hb] at h
      simp at h

theorem schema_try_titled (r : HResp) (j : JVal)
    (h : schema_try r = Except.ok (some j)) :
    jis_dict j = true ∧ jtruthy (jget j "title") = true := by
  unfold schema_try at h
  split at h <;> try simp at h
  split at h <;> try simp at h
  split at h <;> try simp at h
  split at h <;> try simp at h
  split at h
  · rename_i j' hj'
    simp only [Except.ok.injEq, Option.some.injEq] at h
    subst h
    exact accept_titled_spec _ _ hj'
  · split at h
    · rename_i j' hj'
      simp only [Except.ok.injEq, Option.some.injEq] at h
      subst h
      exact accept_titled_spec _ _ hj'
    · simp at h

theorem tools_try_titled (r : HResp) (j : JVal)
    (h : tools_try r = Except.ok (some j)) :
    jis_dict j = true ∧ jtruthy (jget j "title") = true := by
  unfold tools_try at h
  split at h <;> try simp at h
  split at h <;> try simp at h
  split at h <;> try simp at h
  split at h
  · rename_i j' hj'
    simp only [Except.ok.injEq, Option.some.injEq] at h
    subst h
    exact accept_titled_spec _ _ hj'
  · split at h <;> try simp at h
    split at h <;> try simp at h
    split at h
    · rename_i j' hj'
      simp only [Except.ok.injEq, Option.some.injEq] at h
      subst h
      exact accept_titled_spec _ _ hj'
    · simp at h

theorem plain_try_titled (r : HResp) (j : JVal)
    (h : plain_try r = Except.ok (some j)) :
    jis_dict j = true ∧ jtruthy (jget j "title") = true := by
  unfold plain_try at h
  split at h <;> try simp at h
  split at h <;> try simp at h
  split at h <;> try simp at h
  split at h
  · rename_i j' hj'
    simp only [Except.ok.injEq, Option.some.injEq] at h
    subst h
    exact accept_titled_spec _ _ hj'
  · simp at h

theorem summarize_core_never_raises (u : Bool) (b : Behaviour) :
    ∃ o, (summarize_core u b).1 = Except.ok o := by
  unfold summarize_core
  split <;>
    first
      | exact ⟨_, rfl⟩
      | (split
         · exact ⟨_, rfl⟩
         · split
           · exact ⟨_, rfl⟩
           · exact ⟨_, rfl⟩)

theorem summarize_core_titled (u : Bool) (b : Behaviour) (j : JVal)
    (h : (summarize_core u b).1 = Except.ok (some j)) :
    jis_dict j = true ∧ jtruthy (jget j "title") = true := by
  unfold summarize_core at h
  split at h
  · rename_i j' hj'
    simp only [Except.ok.injEq, Option.some.injEq] at h
    subst h
    exact schema_try_titled _ _ hj'
  · simp at h
  all_goals
    (split at h
     · rename_i j' hj'
       simp only [Except.ok.injEq, Option.some.injEq] at h
       subst h
       exact tools_try_titled _ _ hj'
     · split at h
       · rename_i j' hj'
         simp only [Except.ok.injEq, Option.some.injEq] at h
         subst h
         exact plain_try_titled _ _ hj'
       · simp at h)

theorem looks_like_ok (m : String) :
    ∃ bl, looks_like_instruct_model (some m) = Except.ok bl := by
  simp only [looks_like_instruct_model]
  split
  · exact ⟨_, rfl⟩
  · exact ⟨_, rfl⟩

theorem lmstudio_summarize_never_raises (cfg : LMConfig) (b : Behaviour)
    (art : ArticleIn) (m u : String)
    (hm : cfg.model = some m) (hu : cfg.baseUrl = some u) :
    ∃ o, (lmstudio_summarize cfg b art).1 = Except.ok o := by
  obtain ⟨bl, hbl⟩ := looks_like_ok m
  simp only [lmstudio_summarize, hm, hbl, hu]
  exact summarize_core_never_raises cfg.lmUseTools b

theorem lmstudio_summarize_titled (cfg : LMConfig) (b : Behaviour)
    (art : ArticleIn) (j : JVal)
    (h : (lmstudio_summarize cfg b art).1 = Except.ok (some j)) :
    jis_dict j = true ∧ jtruthy (jget j "title") = true := by
  rcases cfg with ⟨mo, bu, ut⟩
  match mo with
  | none =>
    simp [lmstudio_summarize, looks_like_instruct_model] at h
  | some s =>
    obtain ⟨bl, hbl⟩ := looks_like_ok s
    match bu with
    | none => simp [lmstudio_summarize, hbl] at h
    | some u =>
      simp only [lmstudio_summarize, hbl] at h
      exact summarize_core_titled _ _ _ h

theorem summarize_core_trace (u : Bool) (b : Behaviour)
    (hs : schema_try b.schemaResp = Except.ok none) :
    ∃ rest, (summarize_core u b).2 = Req.schema :: Req.chat u :: rest := by
  unfold summarize_core
  split
  · rename_i j hj
    rw [hs] at hj
    simp at hj
  · rename_i hj
    rw [hs] at hj
    simp at hj
  · split
    · exact ⟨[], rfl⟩
    · split
      · exact ⟨[Req.plain], rfl⟩
      · exact ⟨[Req.plain], rfl⟩
  · rename_i a hne hj
    rw [hs] at hj
    simp at hj

/-- Claim C4 (corrected), counterexample: the summarizer adapter is not
exception-free for every configuration the program admits.  main.py never
calls ensure_required, so LMSTUDIO_MODEL may be None at call time; then
summarize_with_lmstudio raises AttributeError at the
looks_like_instruct_model heuristic (model_id.lower() on None) before any
completion request is issued, instead of returning a summary or null. -/
theorem c4_counterexample :
    (lmstudio_summarize cfgNoModel behAllFail sampleArt).1
        = Except.error PyExc.attributeError
  ∧ (lmstudio_summarize cfgNoModel behAllFail sampleArt).2 = [] :=
  ⟨rfl, rfl⟩

/-- Claim C4 (amended): whenever LMSTUDIO_MODEL and LMSTUDIO_BASE_URL are
both set, summarize_with_lmstudio never propagates an exception: for every
article and every external-service behaviour (connection errors, other
request exceptions, arbitrary statuses, unparseable bodies, malformed tool
calls) it returns a summary mapping or null. -/
theorem c4_never_raises_when_configured (cfg : LMConfig) (b : Behaviour)
    (art : ArticleIn) (m u : String)
    (hm : cfg.model = some m) (hu : cfg.baseUrl = some u) :
    ∃ o : Option JVal, (lmstudio_summarize cfg b art).1 = Except.ok o :=
  lmstudio_summarize_never_raises cfg b art m u hm hu

/-- Witness for C4's amended theorem at a concrete configured adapter with
an all-failing service. -/
theorem c4_witness :
    ∃ o : Option JVal,
      (lmstudio_summarize sampleCfg behAllFail sampleArt).1 = Except.ok o :=
  c4_never_raises_when_configured sampleCfg behAllFail sampleArt
    "qwen2.5-7b-instruct-mlx" "http://localhost:1234" rfl rfl

/-- Claim C8 (corrected), counterexample: with the function-call strategy
disabled by configuration and the schema request answered 422, the adapter
does NOT skip straight to plain-instruction: it still issues the
intermediate chat request (without tools), so three requests go out, not
two. -/
theorem c8_counterexample :
    (lmstudio_summarize sampleCfg beh422 sampleArt).2
        = [Req.schema, Req.chat false, Req.plain]
  ∧ ([Req.schema, Req.chat false, Req.plain] : List Req)
        ≠ [Req.schema, Req.plain] :=
  ⟨by decide, by decide⟩

/-- Claim C8 (amended): if the schema-constrained request returns HTTP 422,
the next request issued is the chat request, carrying the function-call
tooling exactly when LM_USE_TOOLS is enabled; when disabled the chat
request is still issued (without tools) before the plain-instruction
request. -/
theorem c8_fallback_order (cfg : LMConfig) (b : Behaviour) (art : ArticleIn)
    (m u : String) (body : Option Msg)
    (hm : cfg.model = some m) (hu : cfg.baseUrl = some u)
    (hs : b.schemaResp = HResp.resp 422 body) :
    ∃ rest, (lmstudio_summarize cfg b art).2
      = Req.schema :: Req.chat cfg.lmUseTools :: rest := by
  obtain ⟨bl, hbl⟩ := looks_like_ok m
  have hschema : schema_try b.schemaResp = Except.ok none := by
    rw [hs]
    simp [schema_try, schemaFallbackStatuses]
  simp only [lmstudio_summarize, hm, hbl, hu]
  exact summarize_core_trace cfg.lmUseTools b hschema

/-- Witness for C8's amended theorem: tools enabled, schema answered 422;
the second request carries the tooling. -/
theorem c8_witness :
    ∃ rest, (lmstudio_summarize sampleCfgTools beh422 sampleArt).2
      = Req.schema :: Req.chat true :: rest :=
  c8_fallback_order sampleCfgTools beh422 sampleArt "qwen2.5-7b-instruct-mlx"
    "http://localhost:1234" none rfl rfl rfl

/-- Claim C9 (corrected), counterexample: in the tool strategy the adapter
parses the plain message content FIRST.  On a response carrying both a
parseable content object (title "from-content") and a tool call whose
arguments parse to a different object (title "from-tool-args"), it returns
the content object, not the tool-call arguments — refuting the claimed
arguments-first order. -/
theorem c9_counterexample :
    tools_try (HResp.resp 200 (some msgBoth)) = Except.ok (some contentObj)
  ∧ msgBoth.tool_calls.length = 1
  ∧ jget contentObj "title" = JVal.jstr "from-content"
  ∧ jget argsObj "title" = JVal.jstr "from-tool-args"
  ∧ ¬ tools_try (HResp.resp 200 (some msgBoth)) = Except.ok (some argsObj) := by
  refine ⟨rfl, rfl, rfl, rfl, ?_⟩
  intro hcontra
  rw [show tools_try (HResp.resp 200 (some msgBoth)) = Except.ok (some contentObj)
        from rfl] at hcontra
  simp only [Except.ok.injEq, Option.some.injEq] at hcontra
  have ht : jget contentObj "title" = jget argsObj "title" := by rw [hcontra]
  rw [show jget contentObj "title" = JVal.jstr "from-content" from rfl,
      show jget argsObj "title" = JVal.jstr "from-tool-args" from rfl] at ht
  exact absurd (JVal.jstr.inj ht) (by decide)

/-- Claim C9 (amended): for every successful completion response in the
tool strategy, the adapter parses the plain message content as JSON first
and returns it if it is an acceptable mapping; only otherwise, if a tool
call is present, it parses the tool call's arguments as JSON. -/
theorem c9_parse_order (status : Nat) (msg : Msg) (hstatus : status < 400) :
    (∀ j, accept_titled (safe_json_parse msg.content) = some j →
        tools_try (HResp.resp status (some msg)) = Except.ok (some j))
  ∧ (accept_titled (safe_json_parse msg.content) = none →
      ∀ args tcs j, msg.tool_calls = MsgToolCall.calldata args :: tcs →
        accept_titled (safe_json_parse args) = some j →
        tools_try (HResp.resp status (some msg)) = Except.ok (some j)) := by
  have h4 : ¬ (400 ≤ status) := Nat.not_le.mpr hstatus
  constructor
  · intro j hj
    simp [tools_try, h4, hj]
  · intro hnone args tcs j htc hargs
    simp [tools_try, h4, hnone, htc, hargs]

/-- Witness for C9's amended theorem: content wins when parseable, and the
tool-call arguments are used when the content is not parseable. -/
theorem c9_witness :
    tools_try (HResp.resp 200 (some msgBoth)) = Except.ok (some contentObj)
  ∧ tools_try
        (HResp.resp 200 (some ⟨none, ⟨none⟩, [MsgToolCall.calldata ⟨some argsObj⟩]⟩))
      = Except.ok (some argsObj) :=
  ⟨(c9_parse_order 200 msgBoth (by decide)).1 contentObj rfl,
   (c9_parse_order 200 ⟨none, ⟨none⟩, [MsgToolCall.calldata ⟨some argsObj⟩]⟩
      (by decide)).2 rfl ⟨some argsObj⟩ [] argsObj rfl rfl⟩

/-- Claim C5 (code_bug): configuration errors are NOT all fatal at startup.
main only runs ensure_token, so with a token set but every other required
setting missing the process starts the bot instead of exiting; the unused
ensure_required (whose docstring says to call it at startup) would have
reported the four missing keys, and a missing NEWS_API_KEY merely makes
every fetch cycle return null (degraded), unchecked by either validator. -/
theorem c5_startup_gap :
    main_startup ⟨some "secret-token", none, none, none, none, none⟩
        = StartupResult.botStarted
  ∧ ensure_required_missing ⟨some "secret-token", none, none, none, none, none⟩
        = ["ADMIN_CHANNEL_ID", "POST_CHANNEL_ID", "LMSTUDIO_BASE_URL",
            "LMSTUDIO_MODEL"]
  ∧ fetch_article
        ⟨none, fun _ => SearchResp.httpError, fun l => l, cfgNoModel, behAllFail⟩
        [] ⟨["topic"], []⟩
      = ⟨none, ⟨["topic"], []⟩, [], []⟩ :=
  ⟨rfl, rfl, rfl⟩

theorem quiet_loop_spec (s : Nat) : ∀ t : Nat,
    (∀ c ∈ (quiet_loop t s).1, c ≤ 60)
  ∧ (quiet_loop t s).2 = t + (quiet_loop t s).1.sum
  ∧ ((9 ≤ hourOf (quiet_loop t s).2 ∧ hourOf (quiet_loop t s).2 < 22)
      ∨ (quiet_loop t s).1.sum = s) := by
  induction s using Nat.strong_induction_on with
  | _ s ih =>
    intro t
    unfold quiet_loop
    split
    · rename_i hs0
      exact ⟨by simp, by simp, Or.inr (by simp [hs0])⟩
    · rename_i hs0
      split
      · rename_i hact
        refine ⟨?_, by simp, Or.inl ?_⟩
        · intro c hc
          simp at hc
          omega
        · exact hact
      · rename_i hact
        obtain ⟨ih1, ih2, ih3⟩ := ih (s - 60) (by omega) (t + min 60 s)
        refine ⟨?_, ?_, ?_⟩
        · intro c hc
          simp at hc
          rcases hc with hc | hc
          · omega
          · exact ih1 c hc
        · rw [List.sum_cons, ih2]
          omega
        · rcases ih3 with h | h
          · exact Or.inl h
          · right
            rw [List.sum_cons, h]
            omega

/-- Claim C6 (corrected), counterexample: at 03:00 (hour 3, inside the
quiet range the claim covers) the code computes tomorrow's 09:00 minus now,
108000 seconds, not the 21600 seconds until the next 09:00. -/
theorem c6_counterexample :
    quiet_hour 10800
  ∧ computed_sleep 10800 = 108000
  ∧ spec_seconds_until_next_9am 10800 = 21600
  ∧ computed_sleep 10800 ≠ spec_seconds_until_next_9am 10800 :=
  ⟨Or.inr (by decide), by decide, by decide, by decide⟩

/-- Claim C6 (amended): on entering the quiet branch at hours 22-23 the
computed duration equals the seconds until the next 09:00; at hours 0-8 it
equals that quantity plus a full day (the code always targets tomorrow's
09:00).  The sleep proceeds in increments of at most 60 seconds,
re-checking the clock each wake, and the loop only ends once active hours
(9 to 22) have begun or the whole computed duration has elapsed. -/
theorem c6_quiet_sleep (now : Nat) :
    (22 ≤ hourOf now → computed_sleep now = spec_seconds_until_next_9am now)
  ∧ (hourOf now < 9 → computed_sleep now = spec_seconds_until_next_9am now + 86400)
  ∧ (∀ c ∈ (quiet_loop now (computed_sleep now)).1, c ≤ 60)
  ∧ ((9 ≤ hourOf (quiet_loop now (computed_sleep now)).2
        ∧ hourOf (quiet_loop now (computed_sleep now)).2 < 22)
      ∨ (quiet_loop now (computed_sleep now)).1.sum = computed_sleep now) := by
  obtain ⟨h1, h2, h3⟩ := quiet_loop_spec (computed_sleep now) now
  refine ⟨?_, ?_, h1, h3⟩
  · intro hq
    simp only [hourOf] at hq
    simp only [computed_sleep, spec_seconds_until_next_9am, sodOf]
    split
    · omega
    · omega
  · intro hq
    simp only [hourOf] at hq
    simp only [computed_sleep, spec_seconds_until_next_9am, sodOf]
    split
    · omega
    · omega

/-- Witness for C6's amended theorem at 22:00 (seconds match) and 03:00
(one extra day). -/
theorem c6_witness :
    computed_sleep 79200 = spec_seconds_until_next_9am 79200
  ∧ computed_sleep 10800 = spec_seconds_until_next_9am 10800 + 86400 :=
  ⟨(c6_quiet_sleep 79200).1 (by decide), ((c6_quiet_sleep 10800).2).1 (by decide)⟩

/-- Claim C3 (confirmed): one pending article, two moderation actions in
either order (all four accept/reject combinations).  The lock makes each
membership-check-and-remove atomic, so every interleaving reduces to one
of these sequential orders.  The first action removes the article exactly
once; the second observes the already-moderated notice, changes nothing
and publishes nothing; publication happens iff the first action was
accept. -/
theorem c3_at_most_once {α : Type} [DecidableEq α]
    (a1 a2 : ModAction) (x : α) (q : List α) (h : q.count x = 1) :
    (moderate_action a1 x q).alreadyModerated = false
  ∧ (moderate_action a2 x (moderate_action a1 x q).queue).alreadyModerated = true
  ∧ (moderate_action a1 x q).queue.count x = 0
  ∧ (moderate_action a2 x (moderate_action a1 x q).queue).queue
      = (moderate_action a1 x q).queue
  ∧ (moderate_action a2 x (moderate_action a1 x q).queue).published = false
  ∧ ((moderate_action a1 x q).published = true ↔ a1 = ModAction.acceptBtn) := by
  have hmem : x ∈ q := List.count_pos_iff.mp (by omega)
  have hq1 : (moderate_action a1 x q).queue = q.erase x := by
    simp [moderate_action, hmem]
  have hcount : (q.erase x).count x = 0 := by
    rw [List.count_erase_self]
    omega
  have hnot : x ∉ q.erase x := List.count_eq_zero.mp hcount
  refine ⟨?_, ?_, ?_, ?_, ?_, ?_⟩
  · simp [moderate_action, hmem]
  · rw [hq1]
    simp [moderate_action, hnot]
  · rw [hq1]
    exact hcount
  · rw [hq1]
    simp [moderate_action, hnot]
  · rw [hq1]
    simp [moderate_action, hnot]
  · cases a1 <;> simp [moderate_action, hmem]

/-- Witness for C3 at a concrete queue holding one article, with accept
arriving first and reject second. -/
theorem c3_witness :
    (moderate_action ModAction.acceptBtn (7 : Nat) [7]).alreadyModerated = false
  ∧ (moderate_action ModAction.rejectBtn (7 : Nat)
        (moderate_action ModAction.acceptBtn (7 : Nat) [7]).queue).alreadyModerated
      = true
  ∧ (moderate_action ModAction.acceptBtn (7 : Nat) [7]).queue.count 7 = 0
  ∧ (moderate_action ModAction.rejectBtn (7 : Nat)
        (moderate_action ModAction.acceptBtn (7 : Nat) [7]).queue).queue
      = (moderate_action ModAction.acceptBtn (7 : Nat) [7]).queue
  ∧ (moderate_action ModAction.rejectBtn (7 : Nat)
        (moderate_action ModAction.acceptBtn (7 : Nat) [7]).queue).published = false
  ∧ ((moderate_action ModAction.acceptBtn (7 : Nat) [7]).published = true
      ↔ ModAction.acceptBtn = ModAction.acceptBtn) :=
  c3_at_most_once ModAction.acceptBtn ModAction.rejectBtn 7 [7] (by decide)

/-! Helper lemmas about the query pools and the fetch loop. -/

theorem pool_commit (q : String) (av usedl : List String) (hq : q ∈ av) :
    poolMultiset ⟨av.erase q, usedl ++ [q]⟩ = poolMultiset ⟨av, usedl⟩ := by
  unfold poolMultiset
  have h1 : (av : Multiset String) = q ::ₘ (av.erase q : Multiset String) := by
    rw [Multiset.cons_coe]
    exact Multiset.coe_eq_coe.mpr (List.perm_cons_erase hq)
  rw [h1, ← Multiset.coe_add, Multiset.coe_singleton, ← Multiset.singleton_add]
  abel

theorem entry_reset_pool (st : FetchState) :
    poolMultiset (entry_reset st) = poolMultiset st := by
  unfold entry_reset
  split
  · simp [poolMultiset, ← Multiset.coe_add]
  · rfl

theorem fetch_loop_pool (env : NewsEnv) (recent : List String) :
    ∀ (qs : List String) (st : FetchState),
      poolMultiset (fetch_loop env recent qs st).state = poolMultiset st := by
  intro qs
  induction qs with
  | nil =>
    intro st
    rfl
  | cons q rest ih =>
    intro st
    cases hs : env.search q with
    | rateLimited =>
      rw [show fetch_loop env recent (q :: rest) st
            = ⟨none, st, [q], handle_api_limit_trace⟩ by simp [fetch_loop, hs]]
    | httpError =>
      rw [show fetch_loop env recent (q :: rest) st
            = cont_with q (fetch_loop env recent rest st) by simp [fetch_loop, hs]]
      exact ih st
    | searchOk arts =>
      cases arts with
      | nil =>
        rw [show fetch_loop env recent (q :: rest) st
              = cont_with q (fetch_loop env recent rest st) by simp [fetch_loop, hs]]
        exact ih st
      | cons a' tl =>
        by_cases hd : is_dup a'.url recent = true
        · rw [show fetch_loop env recent (q :: rest) st
                = cont_with q (fetch_loop env recent rest st) by
              simp [fetch_loop, hs, hd]]
          exact ih st
        · by_cases hm : q ∈ st.available
          · cases he : enrich env a' with
            | ok o =>
              cases o with
              | none =>
                rw [show fetch_loop env recent (q :: rest) st
                      = ⟨some (mk_result a'),
                          ⟨st.available.erase q, st.used ++ [q]⟩, [q], []⟩ by
                    simp [fetch_loop, hs, hd, hm, he]]
                exact pool_commit q st.available st.used hm
              | some j =>
                by_cases hj : jtruthy j = true
                · rw [show fetch_loop env recent (q :: rest) st
                        = ⟨some { mk_result a' with
                              summary := SummaryVal.structured j },
                            ⟨st.available.erase q, st.used ++ [q]⟩, [q], []⟩ by
                      simp [fetch_loop, hs, hd, hm, he, hj]]
                  exact pool_commit q st.available st.used hm
                · rw [show fetch_loop env recent (q :: rest) st
                        = ⟨some (mk_result a'),
                            ⟨st.available.erase q, st.used ++ [q]⟩, [q], []⟩ by
                      simp [fetch_loop, hs, hd, hm, he, hj]]
                  exact pool_commit q st.available st.used hm
            | error e =>
              rw [show fetch_loop env recent (q :: rest) st
                    = cont_with q (fetch_loop env recent rest
                        ⟨st.available.erase q, st.used ++ [q]⟩) by
                  simp [fetch_loop, hs, hd, hm, he]]
              exact (ih _).trans (pool_commit q st.available st.used hm)
          · rw [show fetch_loop env recent (q :: rest) st
                  = cont_with q (fetch_loop env recent rest st) by
                simp [fetch_loop, hs, hd, hm]]
            exact ih st

theorem fetch_article_pool (env : NewsEnv) (recent : List String)
    (st : FetchState) (hsh : ∀ l : List String, (env.shuffle l).Perm l) :
    poolMultiset (fetch_article env recent st).state = poolMultiset st := by
  unfold fetch_article
  split
  · rfl
  · show poolMultiset
        (fetch_loop env recent (env.shuffle (entry_reset st).available)
          ⟨env.shuffle (entry_reset st).available, (entry_reset st).used⟩).state
      = poolMultiset st
    have h2 : poolMultiset
        (⟨env.shuffle (entry_reset st).available, (entry_reset st).used⟩ : FetchState)
        = poolMultiset (entry_reset st) := by
      unfold poolMultiset
      rw [Multiset.coe_eq_coe.mpr (hsh (entry_reset st).available)]
    exact (fetch_loop_pool env recent _ _).trans (h2.trans (entry_reset_pool st))

theorem pool_step_pool (st : FetchState) (op : PoolOp) (h : shuffle_ok op) :
    poolMultiset (pool_step st op) = poolMultiset st := by
  cases op with
  | fetchOp env recent => exact fetch_article_pool env recent st h
  | resetOp => simp [pool_step, reset_daily, poolMultiset, ← Multiset.coe_add]

/-- Claim C1 (confirmed): for every sequence of fetch_article invocations
(whose in-place shuffles are permutations, as random.shuffle is) and daily
resets, the multiset union of the available and used pools is preserved:
no term is ever duplicated or dropped, and each term always sits in
exactly one of the two pools. -/
theorem c1_pool_conservation (ops : List PoolOp) (st : FetchState)
    (h : ∀ op ∈ ops, shuffle_ok op) :
    poolMultiset (run_pool_ops st ops) = poolMultiset st := by
  induction ops generalizing st with
  | nil => rfl
  | cons op rest ih =>
    show poolMultiset (run_pool_ops (pool_step st op) rest) = poolMultiset st
    have h1 : shuffle_ok op := h op (by simp)
    have h2 : ∀ op' ∈ rest, shuffle_ok op' := fun op' hm => h op' (by simp [hm])
    exact (ih (pool_step st op) h2).trans (pool_step_pool st op h1)

/-- Witness for C1: one fetch (which commits "climate") followed by a
daily reset, starting from a mixed pool state. -/
theorem c1_witness :
    poolMultiset (run_pool_ops ⟨["climate", "AI"], ["used1"]⟩
        [PoolOp.fetchOp envFresh [], PoolOp.resetOp])
      = poolMultiset ⟨["climate", "AI"], ["used1"]⟩ :=
  c1_pool_conservation [PoolOp.fetchOp envFresh [], PoolOp.resetOp]
    ⟨["climate", "AI"], ["used1"]⟩
    (by
      intro op hop
      simp only [List.mem_cons, List.not_mem_nil, or_false] at hop
      rcases hop with rfl | rfl
      · intro l
        exact List.Perm.refl l
      · trivial)

theorem desc_or_ne (d : Option String) : desc_or d ≠ "" := by
  cases d with
  | none => decide
  | some s =>
    by_cases h : (s == "") = true
    · rw [show desc_or (some s) = "No description available." by simp [desc_or, h]]
      decide
    · rw [show desc_or (some s) = s by simp [desc_or, h]]
      simpa using h

theorem fetch_loop_result_spec (env : NewsEnv) (recent : List String) :
    ∀ (qs : List String) (st : FetchState) (a : ArticleOut),
      (fetch_loop env recent qs st).result = some a →
      (∀ u, a.link = some u → u ∉ recent) ∧ summary_ok a.summary := by
  intro qs
  induction qs with
  | nil =>
    intro st a h
    simp [fetch_loop] at h
  | cons q rest ih =>
    intro st a h
    cases hs : env.search q with
    | rateLimited => simp [fetch_loop, hs] at h
    | httpError =>
      rw [show (fetch_loop env recent (q :: rest) st)
            = cont_with q (fetch_loop env recent rest st) by
          simp [fetch_loop, hs]] at h
      exact ih st a h
    | searchOk arts =>
      cases arts with
      | nil =>
        rw [show (fetch_loop env recent (q :: rest) st)
              = cont_with q (fetch_loop env recent rest st) by
            simp [fetch_loop, hs]] at h
        exact ih st a h
      | cons a' tl =>
        by_cases hd : is_dup a'.url recent = true
        · rw [show (fetch_loop env recent (q :: rest) st)
                = cont_with q (fetch_loop env recent rest st) by
              simp [fetch_loop, hs, hd]] at h
          exact ih st a h
        · by_cases hm : q ∈ st.available
          · cases he : enrich env a' with
            | ok o =>
              cases o with
              | none =>
                rw [show fetch_loop env recent (q :: rest) st
                      = ⟨some (mk_result a'),
                          ⟨st.available.erase q, st.used ++ [q]⟩, [q], []⟩ by
                    simp [fetch_loop, hs, hd, hm, he]] at h
                replace h : mk_result a' = a := by simpa using h
                subst h
                refine ⟨?_, desc_or_ne a'.description⟩
                intro u hl hmem
                replace hl : a'.url = some u := by simpa [mk_result] using hl
                exact hd (by simp [is_dup, hl, hmem])
              | some j =>
                by_cases hj : jtruthy j = true
                · rw [show fetch_loop env recent (q :: rest) st
                        = ⟨some { mk_result a' with
                              summary := SummaryVal.structured j },
                            ⟨st.available.erase q, st.used ++ [q]⟩, [q], []⟩ by
                      simp [fetch_loop, hs, hd, hm, he, hj]] at h
                  replace h : { mk_result a' with
                      summary := SummaryVal.structured j } = a := by simpa using h
                  subst h
                  refine ⟨?_, ?_⟩
                  · intro u hl hmem
                    replace hl : a'.url = some u := by simpa [mk_result] using hl
                    exact hd (by simp [is_dup, hl, hmem])
                  · have ht := lmstudio_summarize_titled env.lmCfg env.lmBeh
                      ⟨a'.title.getD "", a'.sourceName.getD "",
                        desc_or a'.description, (a'.url).getD ""⟩ j
                      (by simpa [enrich] using he)
                    exact ht
                · rw [show fetch_loop env recent (q :: rest) st
                        = ⟨some (mk_result a'),
                            ⟨st.available.erase q, st.used ++ [q]⟩, [q], []⟩ by
                      simp [fetch_loop, hs, hd, hm, he, hj]] at h
                  replace h : mk_result a' = a := by simpa using h
                  subst h
                  refine ⟨?_, desc_or_ne a'.description⟩
                  intro u hl hmem
                  replace hl : a'.url = some u := by simpa [mk_result] using hl
                  exact hd (by simp [is_dup, hl, hmem])
            | error e =>
              rw [show fetch_loop env recent (q :: rest) st
                    = cont_with q (fetch_loop env recent rest
                        ⟨st.available.erase q, st.used ++ [q]⟩) by
                  simp [fetch_loop, hs, hd, hm, he]] at h
              exact ih _ a h
          · rw [show fetch_loop env recent (q :: rest) st
                  = cont_with q (fetch_loop env recent rest st) by
                simp [fetch_loop, hs, hd, hm]] at h
            exact ih st a h

theorem fetch_loop_all_dup (env : NewsEnv) (recent : List String) :
    ∀ (qs : List String) (st : FetchState),
      (∀ q ∈ qs, dup_top env recent q) →
      fetch_loop env recent qs st = ⟨none, st, qs, []⟩ := by
  intro qs
  induction qs with
  | nil =>
    intro st h
    rfl
  | cons q rest ih =>
    intro st h
    obtain ⟨a, tl, u, hs, hu, hmem⟩ := h q (by simp)
    have hd : is_dup a.url recent = true := by
      simp [is_dup, hu, hmem]
    have hr := ih st (fun q' hq' => h q' (List.mem_cons_of_mem q hq'))
    simp [fetch_loop, hs, hd, hr, cont_with]

/-- Claim C2 (confirmed): fetch_article never returns an article whose
link is an excluded link, and when the top search result of every query is
an excluded link it returns null and commits nothing: the used pool is
exactly what the mid-cycle refill left there. -/
theorem c2_dedup (env : NewsEnv) (recent : List String) (st : FetchState) :
    (∀ a, (fetch_article env recent st).result = some a →
        ∀ u, a.link = some u → u ∉ recent)
  ∧ (news_key_missing env.apiKey = false →
      (∀ q, dup_top env recent q) →
      (fetch_article env recent st).result = none
        ∧ (fetch_article env recent st).state.used = (entry_reset st).used) := by
  constructor
  · intro a h u hl
    unfold fetch_article at h
    split at h
    · simp at h
    · exact (fetch_loop_result_spec env recent _ _ a h).1 u hl
  · intro hk hdup
    have hloop := fetch_loop_all_dup env recent
      (env.shuffle (entry_reset st).available)
      ⟨env.shuffle (entry_reset st).available, (entry_reset st).used⟩
      (fun q _ => hdup q)
    simp [fetch_article, hk, hloop]

/-- Witness for C2: the single query's top result is the one excluded
link; fetch returns null and the used pool stays empty. -/
theorem c2_witness :
    (fetch_article envFresh ["http://example.org/a"] ⟨["climate"], []⟩).result
        = none
  ∧ (fetch_article envFresh ["http://example.org/a"] ⟨["climate"], []⟩).state.used
        = (entry_reset ⟨["climate"], []⟩).used :=
  (c2_dedup envFresh ["http://example.org/a"] ⟨["climate"], []⟩).2 rfl
    (fun _ => ⟨sampleNewsArt, [], "http://example.org/a", rfl, rfl, by decide⟩)

theorem fetch_loop_429 (env : NewsEnv) (recent : List String) :
    ∀ (qs : List String) (st : FetchState),
      (fetch_loop env recent qs st).waits ≠ [] →
      (fetch_loop env recent qs st).result = none
      ∧ (fetch_loop env recent qs st).waits = handle_api_limit_trace
      ∧ (∃ pre q post, qs = pre ++ q :: post
          ∧ (fetch_loop env recent qs st).tried = pre ++ [q]
          ∧ env.search q = SearchResp.rateLimited)
      ∧ ((∀ a : NewsArticle, ∃ o, enrich env a = Except.ok o) →
          (fetch_loop env recent qs st).state = st) := by
  intro qs
  induction qs with
  | nil =>
    intro st hw
    simp [fetch_loop] at hw
  | cons q rest ih =>
    intro st hw
    cases hs : env.search q with
    | rateLimited =>
      refine ⟨by simp [fetch_loop, hs], by simp [fetch_loop, hs],
        ⟨[], q, rest, rfl, by simp [fetch_loop, hs], hs⟩,
        fun _ => by simp [fetch_loop, hs]⟩
    | httpError =>
      rw [show (fetch_loop env recent (q :: rest) st)
            = cont_with q (fetch_loop env recent rest st) by
          simp [fetch_loop, hs]] at hw ⊢
      have hw' : (fetch_loop env recent rest st).waits ≠ [] := by
        simpa [cont_with] using hw
      obtain ⟨h1, h3, ⟨pre, q', post, hqs, htr, hsq⟩, hst⟩ := ih st hw'
      exact ⟨by simpa [cont_with] using h1, by simpa [cont_with] using h3,
        ⟨q :: pre, q', post, by simp [hqs], by simp [cont_with, htr], hsq⟩,
        fun hok => by simpa [cont_with] using hst hok⟩
    | searchOk arts =>
      cases arts with
      | nil =>
        rw [show (fetch_loop env recent (q :: rest) st)
              = cont_with q (fetch_loop env recent rest st) by
            simp [fetch_loop, hs]] at hw ⊢
        have hw' : (fetch_loop env recent rest st).waits ≠ [] := by
          simpa [cont_with] using hw
        obtain ⟨h1, h3, ⟨pre, q', post, hqs, htr, hsq⟩, hst⟩ := ih st hw'
        exact ⟨by simpa [cont_with] using h1, by simpa [cont_with] using h3,
          ⟨q :: pre, q', post, by simp [hqs], by simp [cont_with, htr], hsq⟩,
          fun hok => by simpa [cont_with] using hst hok⟩
      | cons a' tl =>
        by_cases hd : is_dup a'.url recent = true
        · rw [show (fetch_loop env recent (q :: rest) st)
                = cont_with q (fetch_loop env recent rest st) by
              simp [fetch_loop, hs, hd]] at hw ⊢
          have hw' : (fetch_loop env recent rest st).waits ≠ [] := by
            simpa [cont_with] using hw
          obtain ⟨h1, h3, ⟨pre, q', post, hqs, htr, hsq⟩, hst⟩ := ih st hw'
          exact ⟨by simpa [cont_with] using h1, by simpa [cont_with] using h3,
            ⟨q :: pre, q', post, by simp [hqs], by simp [cont_with, htr], hsq⟩,
            fun hok => by simpa [cont_with] using hst hok⟩
        · by_cases hm : q ∈ st.available
          · cases he : enrich env a' with
            | ok o =>
              cases o with
              | none =>
                rw [show fetch_loop env recent (q :: rest) st
                      = ⟨some (mk_result a'),
                          ⟨st.available.erase q, st.used ++ [q]⟩, [q], []⟩ by
                    simp [fetch_loop, hs, hd, hm, he]] at hw
                exact absurd rfl hw
              | some j =>
                by_cases hj : jtruthy j = true
                · rw [show fetch_loop env recent (q :: rest) st
                        = ⟨some { mk_result a' with
                              summary := SummaryVal.structured j },
                            ⟨st.available.erase q, st.used ++ [q]⟩, [q], []⟩ by
                      simp [fetch_loop, hs, hd, hm, he, hj]] at hw
                  exact absurd rfl hw
                · rw [show fetch_loop env recent (q :: rest) st
                        = ⟨some (mk_result a'),
                            ⟨st.available.erase q, st.used ++ [q]⟩, [q], []⟩ by
                      simp [fetch_loop, hs, hd, hm, he, hj]] at hw
                  exact absurd rfl hw
            | error e =>
              rw [show (fetch_loop env recent (q :: rest) st)
                    = cont_with q (fetch_loop env recent rest
                        ⟨st.available.erase q, st.used ++ [q]⟩) by
                  simp [fetch_loop, hs, hd, hm, he]] at hw ⊢
              have hw' : (fetch_loop env recent rest
                  ⟨st.available.erase q, st.used ++ [q]⟩).waits ≠ [] := by
                simpa [cont_with] using hw
              obtain ⟨h1, h3, ⟨pre, q', post, hqs, htr, hsq⟩, _⟩ := ih _ hw'
              refine ⟨by simpa [cont_with] using h1, by simpa [cont_with] using h3,
                ⟨q :: pre, q', post, by simp [hqs], by simp [cont_with, htr], hsq⟩,
                ?_⟩
              intro hok
              obtain ⟨o, ho⟩ := hok a'
              rw [ho] at he
              simp at he
          · rw [show (fetch_loop env recent (q :: rest) st)
                  = cont_with q (fetch_loop env recent rest st) by
                simp [fetch_loop, hs, hd, hm]] at hw ⊢
            have hw' : (fetch_loop env recent rest st).waits ≠ [] := by
              simpa [cont_with] using hw
            obtain ⟨h1, h3, ⟨pre, q', post, hqs, htr, hsq⟩, hst⟩ := ih st hw'
            exact ⟨by simpa [cont_with] using h1, by simpa [cont_with] using h3,
              ⟨q :: pre, q', post, by simp [hqs], by simp [cont_with, htr], hsq⟩,
              fun hok => by simpa [cont_with] using hst hok⟩

/-- Claim C7 (corrected), counterexample: a term CAN be committed in the
same invocation that hits the 429.  With the summarizer model unset, the
first query succeeds, commits "q1", then enrichment raises (caught by the
per-query except) and the loop continues; the second query answers 429, so
the backoff runs and null is returned with "q1" already in the used pool —
contradicting "without committing any term". -/
theorem c7_counterexample :
    (fetch_article envBug [] ⟨["q1", "q2"], []⟩).waits = handle_api_limit_trace
  ∧ (fetch_article envBug [] ⟨["q1", "q2"], []⟩).result = none
  ∧ (fetch_article envBug [] ⟨["q1", "q2"], []⟩).state.used = ["q1"]
  ∧ (["q1"] : List String) ≠ [] :=
  ⟨rfl, rfl, rfl, by decide⟩

/-- Claim C7 (amended): whenever a searched term is answered 429,
fetch_article — under any summarizer configuration — runs the 15-minute
backoff in 1-minute increments (15 sleeps of 60 seconds, logging 14 down
to 0 minutes remaining), returns null immediately, and tries no further
term (the tried list ends at the 429 term); and, provided the summarizer
configuration is complete so enrichment cannot raise, it also commits
nothing: both pools are exactly what the entry refill and shuffle left. -/
theorem c7_rate_limit (env : NewsEnv) (recent : List String) (st : FetchState)
    (hw : (fetch_article env recent st).waits ≠ []) :
    (fetch_article env recent st).result = none
  ∧ (fetch_article env recent st).waits = handle_api_limit_trace
  ∧ (∀ w ∈ (fetch_article env recent st).waits, w.1 ≤ 60)
  ∧ ((fetch_article env recent st).waits.map Prod.fst).sum = 15 * 60
  ∧ (fetch_article env recent st).waits.map Prod.snd
      = [14, 13, 12, 11, 10, 9, 8, 7, 6, 5, 4, 3, 2, 1, 0]
  ∧ (∃ pre q post,
      env.shuffle (entry_reset st).available = pre ++ q :: post
      ∧ (fetch_article env recent st).tried = pre ++ [q]
      ∧ env.search q = SearchResp.rateLimited)
  ∧ (∀ m u, env.lmCfg.model = some m → env.lmCfg.baseUrl = some u →
      (fetch_article env recent st).state.available
          = env.shuffle (entry_reset st).available
      ∧ (fetch_article env recent st).state.used = (entry_reset st).used) := by
  by_cases hk : news_key_missing env.apiKey = true
  · exact absurd (by simp [fetch_article, hk]) hw
  · have hfa : fetch_article env recent st
        = fetch_loop env recent (env.shuffle (entry_reset st).available)
            ⟨env.shuffle (entry_reset st).available, (entry_reset st).used⟩ := by
      simp [fetch_article, hk]
    rw [hfa] at hw ⊢
    obtain ⟨h1, h3, ⟨pre, q, post, hqs, htr, hsq⟩, hst⟩ :=
      fetch_loop_429 env recent _ _ hw
    refine ⟨h1, h3, ?_, ?_, ?_, ⟨pre, q, post, hqs, htr, hsq⟩, ?_⟩
    · rw [h3]
      decide
    · rw [h3]
      decide
    · rw [h3]
      decide
    · intro m u hm hu
      have hok : ∀ a : NewsArticle, ∃ o, enrich env a = Except.ok o := fun a =>
        lmstudio_summarize_never_raises env.lmCfg env.lmBeh _ m u hm hu
      rw [hst hok]
      exact ⟨rfl, rfl⟩

/-- Witness for C7's amended theorem: a configured environment whose only
query is answered 429; the no-commit clause is instantiated at the
concrete configuration. -/
theorem c7_witness :
    (fetch_article envRL [] ⟨["q"], []⟩).result = none
  ∧ (fetch_article envRL [] ⟨["q"], []⟩).waits = handle_api_limit_trace
  ∧ (fetch_article envRL [] ⟨["q"], []⟩).state.used
      = (entry_reset ⟨["q"], []⟩).used :=
  ⟨(c7_rate_limit envRL [] ⟨["q"], []⟩ (by decide)).1,
   (c7_rate_limit envRL [] ⟨["q"], []⟩ (by decide)).2.1,
   ((c7_rate_limit envRL [] ⟨["q"], []⟩ (by decide)).2.2.2.2.2.2
      "qwen2.5-7b-instruct-mlx" "http://localhost:1234" rfl rfl).2⟩

/-- Claim C10 (confirmed): every article returned by fetch_article carries
a summary that is either a mapping with a truthy (non-empty) title entry,
or a non-empty text: the search result's description, or exactly the
placeholder "No description available." when the description is missing or
empty; never null and never the empty string. -/
theorem c10_summary_shape (env : NewsEnv) (recent : List String)
    (st : FetchState) (a : ArticleOut)
    (h : (fetch_article env recent st).result = some a) :
    summary_ok a.summary := by
  unfold fetch_article at h
  split at h
  · simp at h
  · exact (fetch_loop_result_spec env recent _ _ a h).2

/-- Witness for C10: a fetch whose enrichment fails cleanly returns the
raw description "D" as summary, which is non-empty. -/
theorem c10_witness : summary_ok (SummaryVal.text "D") :=
  c10_summary_shape envFresh [] ⟨["climate"], []⟩
    ⟨"T", "S", SummaryVal.text "D", some "http://example.org/a"⟩ rfl

end LocalAINews
